import Mathlib

/-!
Verification development for the serialization and storage module
(`qctoolkit/serialization.py`).

The module is shallowly embedded: Python dictionaries become association
lists (`Assoc`), Python exceptions become `Except` results which also carry
the (possibly mutated) state, and the mutually recursive
encoder/decoder/store functions are given an explicit fuel parameter so
that every definition is a total, executable Lean function.
-/

/-- Association list keyed by strings; the embedding of a Python `dict`
(str keys, insertion order preserved). -/
abbrev Assoc (α : Type) := List (String × α)

/-- Embedding of `dict.get`/`in`: first entry with the given key. -/
def alookup : Assoc α → String → Option α
  | [], _ => none
  | (k, v) :: rest, i => if k = i then some v else alookup rest i

/-- Embedding of `dict[k] = v`: replace the entry in place if the key is present,
else append at the end (Python dicts preserve insertion order). -/
def ainsert : Assoc α → String → α → Assoc α
  | [], k, v => [(k, v)]
  | (k', v') :: rest, k, v =>
    if k' = k then (k, v) :: rest else (k', v') :: ainsert rest k v

/-- Embedding of `del dict[k]` / `dict.pop(k)`: drop entries with the given key. -/
def aremove : Assoc α → String → Assoc α
  | [], _ => []
  | (k', v) :: rest, k =>
    if k' = k then aremove rest k else (k', v) :: aremove rest k

/-! ## Error taxonomy

One constructor per distinct Python exception raised by the module. -/

/-- Errors raised by the storage/serialization code
(`FileExistsError`, `KeyError`, the various `RuntimeError`s). -/
inductive SErr where
  /-- Fuel exhaustion of the shallow embedding (never reached with
  enough fuel; not a Python exception). -/
  | outOfFuel
  /-- `FileExistsError`: `put` without permission on an existing identifier. -/
  | alreadyExists
  /-- `KeyError`: `get`/`delete` of an absent identifier. -/
  | keyNotFound
  /-- `RuntimeError: Identifier assigned twice with different objects`. -/
  | assignedTwice
  /-- `RuntimeError: Identifier already assigned in storage backend`. -/
  | alreadyInBackend
  /-- `RuntimeError: Trying to store a subpulse with an identifier that is
  already taken.` -/
  | identifierTaken
  /-- `RuntimeError: Reference without identifier`. -/
  | referenceWithoutIdentifier
  /-- `KeyError` from `SerializableMeta.deserialization_callbacks` lookup:
  no reconstruction callback registered for the type tag. -/
  | unknownType
  /-- `RuntimeError: Pulse with name already exists` from
  `Serializable._register`. -/
  | duplicateIdentifier
deriving DecidableEq, Repr

/-! ## `DictBackend` (src/qctoolkit/serialization.py, lines 269-290)

State: the `_cache` dict, an association list from identifier to data. -/

namespace DictBackend

/-- Embedding of `DictBackend.put`. -/
def put (cache : Assoc String) (identifier data : String) (overwrite : Bool) :
    Except SErr (Assoc String) :=
  if (alookup cache identifier).isSome && !overwrite then .error .alreadyExists
  else .ok (ainsert cache identifier data)

/-- Embedding of `DictBackend.get` (`self._cache[identifier]`, `KeyError` when absent). -/
def get (cache : Assoc String) (identifier : String) : Except SErr String :=
  match alookup cache identifier with
  | some d => .ok d
  | none => .error .keyNotFound

/-- Embedding of `DictBackend.exists`. -/
def exists_ (cache : Assoc String) (identifier : String) : Bool :=
  (alookup cache identifier).isSome

/-- Embedding of `DictBackend.delete` (`del self._cache[identifier]`). -/
def delete (cache : Assoc String) (identifier : String) :
    Except SErr (Assoc String) :=
  if (alookup cache identifier).isSome then .ok (aremove cache identifier)
  else .error .keyNotFound

end DictBackend

/-! ## `CachingBackend` (lines 229-266)

Wraps another backend; modelled here wrapping a `DictBackend` (the inner
backend's state is the second component). -/

/-- Embedding of `CachingBackend` state: the `_cache` dict plus the wrapped backend. -/
structure CachingState where
  cache : Assoc String
  inner : Assoc String
deriving DecidableEq, Repr

namespace CachingBackend

/-- Embedding of `CachingBackend.put`. -/
def put (s : CachingState) (identifier data : String) (overwrite : Bool) :
    Except SErr CachingState :=
  if (alookup s.cache identifier).isSome && !overwrite then .error .alreadyExists
  else
    match DictBackend.put s.inner identifier data overwrite with
    | .error e => .error e
    | .ok inner' => .ok ⟨ainsert s.cache identifier data, inner'⟩

/-- Embedding of `CachingBackend.get`: serves from the cache after the first successful
fetch; the returned state reflects the cache fill. -/
def get (s : CachingState) (identifier : String) :
    Except SErr (String × CachingState) :=
  match alookup s.cache identifier with
  | some d => .ok (d, s)
  | none =>
    match DictBackend.get s.inner identifier with
    | .error e => .error e
    | .ok d => .ok (d, ⟨ainsert s.cache identifier d, s.inner⟩)

/-- Embedding of `CachingBackend.exists`: delegates to the wrapped backend. -/
def exists_ (s : CachingState) (identifier : String) : Bool :=
  DictBackend.exists_ s.inner identifier

/-- Embedding of `CachingBackend.delete`. -/
def delete (s : CachingState) (identifier : String) :
    Except SErr CachingState :=
  match DictBackend.delete s.inner identifier with
  | .error e => .error e
  | .ok inner' => .ok ⟨aremove s.cache identifier, inner'⟩

end CachingBackend

/-! ## `FilesystemBackend` (lines 95-142)

State: the directory contents, an association list from file path to file
content. `_path` derives the file name from the identifier. -/

namespace FilesystemBackend

/-- Embedding of `FilesystemBackend._path`: `os.path.join(self._root, identifier + '.json')`. -/
def path (root identifier : String) : String :=
  root ++ "/" ++ identifier ++ ".json"

/-- Embedding of `FilesystemBackend.exists`: `os.path.isfile(path)`. -/
def exists_ (root : String) (fs : Assoc String) (identifier : String) : Bool :=
  (alookup fs (path root identifier)).isSome

/-- Embedding of `FilesystemBackend.put`. -/
def put (root : String) (fs : Assoc String) (identifier data : String)
    (overwrite : Bool) : Except SErr (Assoc String) :=
  if exists_ root fs identifier && !overwrite then .error .alreadyExists
  else .ok (ainsert fs (path root identifier) data)

/-- Embedding of `FilesystemBackend.get` (`FileNotFoundError` is re-raised as `KeyError`). -/
def get (root : String) (fs : Assoc String) (identifier : String) :
    Except SErr String :=
  match alookup fs (path root identifier) with
  | some d => .ok d
  | none => .error .keyNotFound

/-- Embedding of `FilesystemBackend.delete` (`os.remove`; `FileNotFoundError` re-raised
as `KeyError`). -/
def delete (root : String) (fs : Assoc String) (identifier : String) :
    Except SErr (Assoc String) :=
  match alookup fs (path root identifier) with
  | some _ => .ok (aremove fs (path root identifier))
  | none => .error .keyNotFound

end FilesystemBackend

/-! ## `ZipFileBackend` (lines 145-226)

The archive is an association list of entries (entry name, data); the
file system around it holds the archive file at `_root` and possibly a
temporary file created by `_update`. `_update` is modelled step by step
so that interrupted runs are expressible. -/

/-- The files `ZipFileBackend._update` manipulates: the archive at
`self._root` and the temporary archive from `tempfile.mkstemp`.
`none` means the file does not exist. -/
structure ZipFiles where
  archive : Option (Assoc String)
  temp : Option (Assoc String)
deriving DecidableEq, Repr

namespace ZipFileBackend

/-- Embedding of `ZipFileBackend._path`: `os.path.join(identifier + '.json')`. -/
def path (identifier : String) : String := identifier ++ ".json"

/-- State of the files after the first `n` steps of
`ZipFileBackend._update(filename, data)` starting from an archive with
entries `z` and no temporary file. The steps of the source:
0 = nothing yet; 1 = `tempfile.mkstemp` + `os.close` (empty temp file);
2 = copy every entry other than `filename` into the temp archive;
3 = `os.remove(self._root)`; 4 = `os.rename(tmpname, self._root)`;
5 = append `filename` with its new data (only when `data is not None`). -/
def updateAfter (z : Assoc String) (filename : String) (data : Option String) :
    Nat → ZipFiles
  | 0 => ⟨some z, none⟩
  | 1 => ⟨some z, some []⟩
  | 2 => ⟨some z, some (z.filter (fun it => it.1 ≠ filename))⟩
  | 3 => ⟨none, some (z.filter (fun it => it.1 ≠ filename))⟩
  | 4 => ⟨some (z.filter (fun it => it.1 ≠ filename)), none⟩
  | _ + 5 =>
    ⟨some (z.filter (fun it => it.1 ≠ filename) ++
      (match data with | some d => [(filename, d)] | none => [])), none⟩

/-- The archive contents after a complete, uninterrupted
`ZipFileBackend._update(filename, data)`. -/
def update (z : Assoc String) (filename : String) (data : Option String) :
    Assoc String :=
  ((updateAfter z filename data 5).archive).getD []

/-- Embedding of `ZipFileBackend.exists`: entry-name membership in the archive. -/
def exists_ (z : Assoc String) (identifier : String) : Bool :=
  (alookup z (path identifier)).isSome

/-- Embedding of `ZipFileBackend.put`: append directly when the identifier is absent,
else `_update` when overwriting, else `FileExistsError`. -/
def put (z : Assoc String) (identifier data : String) (overwrite : Bool) :
    Except SErr (Assoc String) :=
  if !exists_ z identifier then .ok (z ++ [(path identifier, data)])
  else if overwrite then .ok (update z (path identifier) (some data))
  else .error .alreadyExists

/-- Embedding of `ZipFileBackend.get` (a missing member raises `KeyError`). -/
def get (z : Assoc String) (identifier : String) : Except SErr String :=
  match alookup z (path identifier) with
  | some d => .ok d
  | none => .error .keyNotFound

/-- Embedding of `ZipFileBackend.delete`. -/
def delete (z : Assoc String) (identifier : String) :
    Except SErr (Assoc String) :=
  if !exists_ z identifier then .error .keyNotFound
  else .ok (update z (path identifier) none)

end ZipFileBackend

/-! ## `Serializable._register` (lines 364-385)

The registry (`default_pulse_registry`, a `weakref.WeakValueDictionary`)
maps identifiers to live entities; entity instances are represented by
their instance number (`uid`). Reachability of an instance is a predicate
`live`; `gc.collect(2)` forces the sweep that drops entries whose entity
is unreachable. -/

/-- The effect of `gc.collect(2)` on the weak-value registry: every entry
whose entity is no longer reachable disappears. -/
def sweep (reg : Assoc Nat) (live : Nat → Bool) : Assoc Nat :=
  reg.filter (fun kv => live kv.2)

/-- Embedding of `Serializable._register` on a (non-`None`) registry: `selfUid` is the
instance being registered, `ident` its (optional) identifier. Returns the
updated registry, or the `RuntimeError` for a duplicate name. -/
def register (reg : Assoc Nat) (live : Nat → Bool) (selfUid : Nat)
    (ident : Option String) : Except SErr (Assoc Nat) :=
  match ident with
  | none => .ok reg
  | some i =>
    if i = "" then .ok reg
    else if (alookup reg i).isSome then
      let reg' := sweep reg live
      if (alookup reg' i).isSome then .error .duplicateIdentifier
      else .ok (ainsert reg' i selfUid)
    else .ok (ainsert reg i selfUid)

/-! ## The document model

`JVal` is a parsed JSON document (the textual serialization, up to JSON
syntax); `SVal` is a live Python value handed to the encoder or produced
by the decoder: JSON-compatible data plus `Serializable` instances.
A `Serializable` instance carries an instance number `uid` (modelling
object identity, Python's `is`), its type identifier, its optional
identifier and the fields reported by `get_serialization_data`. -/

/-- A JSON document tree (the stored serialization text, parsed). -/
inductive JVal where
  | str (s : String)
  | int (n : Int)
  | arr (xs : List JVal)
  | obj (fields : List (String × JVal))

/-- A live value: JSON-compatible data plus `Serializable` instances. -/
inductive SVal where
  | str (s : String)
  | int (n : Int)
  | arr (xs : List SVal)
  | obj (fields : List (String × SVal))
  /-- A `Serializable` instance: `uid` models object identity. -/
  | ent (uid : Nat) (tag : String) (ident : Option String)
      (fields : List (String × SVal))

/-- Python `is` on stored serializables: identity of instances. -/
def isSame : SVal → SVal → Bool
  | .ent u _ _ _, .ent u' _ _ _ => u == u'
  | _, _ => false

/-- The Reference Token for an identifier (`JSONSerializableEncoder.default`,
lines 792-793). -/
def refToken (identifier : String) : JVal :=
  .obj [("#type", .str "reference"), ("#identifier", .str identifier)]

/-- Embedding of `Serializable.get_serialization_data` (lines 419-422) plus the
subclass-provided fields: the type tag, the identifier tag when the
identifier is truthy, then the entity's own fields. On non-entities it is
the identity (never used there). -/
def serializationRecord : SVal → SVal
  | .ent _ tag ident fields =>
    .obj (("#type", .str tag) ::
      (match ident with
       | some i => if i = "" then [] else [("#identifier", .str i)]
       | none => []) ++ fields)
  | v => v

/-- Embedding of `PulseStorage` state (lines 645-650): the materialized-entity cache
`_temporary_storage` (identifier to `StorageEntry(serialization,
serializable)`), the transaction accumulator `_transaction_storage`, the
storage backend contents (a `DictBackend`), a counter supplying fresh
instance numbers for entities built by the decoder, and the process-wide
`SerializableMeta.deserialization_callbacks` table (the type tags that
have a registered reconstruction callback; every callback is the default
`cls(**kwargs)` constructor, lines 313-316 and 429-456). -/
structure StoreState where
  temp : Assoc (JVal × SVal)
  txn : Option (Assoc (JVal × SVal))
  backend : Assoc JVal
  nextUid : Nat
  table : List String

/-- Embedding of `PulseStorage.__contains__` (lines 668-669). -/
def storeContains (st : StoreState) (identifier : String) : Bool :=
  (alookup st.temp identifier).isSome || (alookup st.backend identifier).isSome

/-- The flush loop of `PulseStorage.overwrite` (lines 713-714): one
`backend.put(identifier, serialization, overwrite=True)` per accumulated
entry. -/
def flushAll (backend : Assoc JVal) (txn : Assoc (JVal × SVal)) : Assoc JVal :=
  txn.foldl (fun b kv => ainsert b kv.1 kv.2.1) backend

/-- Embedding of `self._temporary_storage.update(**self._transaction_storage)`
(line 715). -/
def mergeTemp (temp txn : Assoc (JVal × SVal)) : Assoc (JVal × SVal) :=
  txn.foldl (fun t kv => ainsert t kv.1 kv.2) temp

/-! ### The decode side

`JSONSerializableDecoder` (lines 739-772) with its `object_hook`
`filter_serializables`, mutually recursive with `PulseStorage.__getitem__`
and `PulseStorage._load_and_deserialize` (lines 657-674) through
reference resolution. All functions take fuel and return the result
together with the (possibly mutated) store state; errors also carry the
state, matching Python where mutations before an exception persist. -/

mutual

/-- Embedding of `PulseStorage.__getitem__` (lines 671-674). -/
def storeGet : Nat → StoreState → String → Except SErr SVal × StoreState
  | 0, st, _ => (.error .outOfFuel, st)
  | fuel + 1, st, identifier =>
    match alookup st.temp identifier with
    | some entry => (.ok entry.2, st)
    | none =>
      match loadAndDeserialize fuel st identifier with
      | (.error e, st') => (.error e, st')
      | (.ok entry, st') => (.ok entry.2, st')

/-- Embedding of `PulseStorage._load_and_deserialize` (lines 657-662): backend `get`
(`KeyError` when the document is absent), decode, cache in
`_temporary_storage`. -/
def loadAndDeserialize :
    Nat → StoreState → String → Except SErr (JVal × SVal) × StoreState
  | 0, st, _ => (.error .outOfFuel, st)
  | fuel + 1, st, identifier =>
    match alookup st.backend identifier with
    | none => (.error .keyNotFound, st)
    | some serialization =>
      match decodeVal fuel st serialization with
      | (.error e, st') => (.error e, st')
      | (.ok serializable, st') =>
        (.ok (serialization, serializable),
         {st' with
            temp := ainsert st'.temp identifier (serialization, serializable)})

/-- Embedding of `json.JSONDecoder.decode` with `object_hook=filter_serializables`:
structural decoding, applying the hook to every mapping bottom-up. -/
def decodeVal : Nat → StoreState → JVal → Except SErr SVal × StoreState
  | 0, st, _ => (.error .outOfFuel, st)
  | fuel + 1, st, j =>
    match j with
    | .str s => (.ok (.str s), st)
    | .int n => (.ok (.int n), st)
    | .arr xs =>
      match decodeArr fuel st xs with
      | (.error e, st') => (.error e, st')
      | (.ok ys, st') => (.ok (.arr ys), st')
    | .obj fields =>
      match decodeObj fuel st fields with
      | (.error e, st') => (.error e, st')
      | (.ok dfields, st') => filterSerializables fuel st' dfields

/-- Decoding of the elements of a JSON array. -/
def decodeArr : Nat → StoreState → List JVal → Except SErr (List SVal) × StoreState
  | 0, st, _ => (.error .outOfFuel, st)
  | fuel + 1, st, js =>
    match js with
    | [] => (.ok [], st)
    | j :: rest =>
      match decodeVal fuel st j with
      | (.error e, st') => (.error e, st')
      | (.ok v, st') =>
        match decodeArr fuel st' rest with
        | (.error e, st'') => (.error e, st'')
        | (.ok vs, st'') => (.ok (v :: vs), st'')

/-- Decoding of the values of a JSON mapping (before the hook runs). -/
def decodeObj : Nat → StoreState → List (String × JVal) →
    Except SErr (List (String × SVal)) × StoreState
  | 0, st, _ => (.error .outOfFuel, st)
  | fuel + 1, st, fs =>
    match fs with
    | [] => (.ok [], st)
    | (k, j) :: rest =>
      match decodeVal fuel st j with
      | (.error e, st') => (.error e, st')
      | (.ok v, st') =>
        match decodeObj fuel st' rest with
        | (.error e, st'') => (.error e, st'')
        | (.ok vs, st'') => (.ok ((k, v) :: vs), st'')

/-- Embedding of `JSONSerializableDecoder.filter_serializables` (lines 746-772): pop
the type tag (mapping returned unchanged when absent), pop the identifier
tag; the reference tag resolves through the owning store; any other tag
dispatches on `SerializableMeta.deserialization_callbacks`, constructing
a fresh entity instance from the remaining fields plus the identifier;
an unregistered tag is a `KeyError`. -/
def filterSerializables : Nat → StoreState → List (String × SVal) →
    Except SErr SVal × StoreState
  | 0, st, _ => (.error .outOfFuel, st)
  | fuel + 1, st, fs =>
    match alookup fs "#type" with
    | none => (.ok (.obj fs), st)
    | some tv =>
      let fs1 := aremove fs "#type"
      let oid := alookup fs1 "#identifier"
      let fs2 := aremove fs1 "#identifier"
      match tv with
      | .str t =>
        if t = "reference" then
          match oid with
          | some (.str i) =>
            if i = "" then (.error .referenceWithoutIdentifier, st)
            else storeGet fuel st i
          | _ => (.error .referenceWithoutIdentifier, st)
        else if t ∈ st.table then
          let oidStr := match oid with
            | some (.str s) => some s
            | _ => none
          (.ok (.ent st.nextUid t oidStr fs2), {st with nextUid := st.nextUid + 1})
        else (.error .unknownType, st)
      | _ => (.error .unknownType, st)

end

/-! ### The encode side

`JSONSerializableEncoder` (lines 775-804), mutually recursive with
`PulseStorage.__setitem__` (lines 676-684) and `PulseStorage.overwrite`
(lines 698-719): encoding an identified entity assigns it into the owning
store, which runs a (nested) overwrite. -/

mutual

/-- Embedding of `json.JSONEncoder.encode` with `JSONSerializableEncoder.default`
(lines 783-804) for entity values: an identified entity is assigned into
the store if the store does not contain the identifier (else compared by
identity against the store's entity) and encodes as a Reference Token; an
anonymous entity encodes as its own serialization record, embedded. -/
def encodeVal : Nat → StoreState → SVal → Except SErr JVal × StoreState
  | 0, st, _ => (.error .outOfFuel, st)
  | fuel + 1, st, v =>
    match v with
    | .str s => (.ok (.str s), st)
    | .int n => (.ok (.int n), st)
    | .arr xs =>
      match encodeArr fuel st xs with
      | (.error e, st') => (.error e, st')
      | (.ok js, st') => (.ok (.arr js), st')
    | .obj fields =>
      match encodeObj fuel st fields with
      | (.error e, st') => (.error e, st')
      | (.ok jfields, st') => (.ok (.obj jfields), st')
    | .ent uid tag ident fields =>
      match ident with
      | some i =>
        if i = "" then
          encodeVal fuel st (.obj (("#type", .str tag) :: fields))
        else if storeContains st i then
          match storeGet fuel st i with
          | (.error e, st') => (.error e, st')
          | (.ok cur, st') =>
            if isSame cur (.ent uid tag ident fields) then
              (.ok (refToken i), st')
            else (.error .identifierTaken, st')
        else
          match storeSet fuel st i (.ent uid tag ident fields) with
          | (.error e, st') => (.error e, st')
          | (.ok _, st') => (.ok (refToken i), st')
      | none => encodeVal fuel st (.obj (("#type", .str tag) :: fields))

/-- Encoding of the elements of a list value. -/
def encodeArr : Nat → StoreState → List SVal → Except SErr (List JVal) × StoreState
  | 0, st, _ => (.error .outOfFuel, st)
  | fuel + 1, st, vs =>
    match vs with
    | [] => (.ok [], st)
    | v :: rest =>
      match encodeVal fuel st v with
      | (.error e, st') => (.error e, st')
      | (.ok j, st') =>
        match encodeArr fuel st' rest with
        | (.error e, st'') => (.error e, st'')
        | (.ok js, st'') => (.ok (j :: js), st'')

/-- Encoding of the values of a mapping value. -/
def encodeObj : Nat → StoreState → List (String × SVal) →
    Except SErr (List (String × JVal)) × StoreState
  | 0, st, _ => (.error .outOfFuel, st)
  | fuel + 1, st, fs =>
    match fs with
    | [] => (.ok [], st)
    | (k, v) :: rest =>
      match encodeVal fuel st v with
      | (.error e, st') => (.error e, st')
      | (.ok j, st') =>
        match encodeObj fuel st' rest with
        | (.error e, st'') => (.error e, st'')
        | (.ok js, st'') => (.ok ((k, j) :: js), st'')

/-- Embedding of `PulseStorage.__setitem__` (lines 676-684): a no-op if the identifier
is cached with the very same entity; `RuntimeError` if cached with a
different entity or (when not cached) present in the storage backend;
otherwise `overwrite`. -/
def storeSet : Nat → StoreState → String → SVal → Except SErr Unit × StoreState
  | 0, st, _, _ => (.error .outOfFuel, st)
  | fuel + 1, st, identifier, serializable =>
    match alookup st.temp identifier with
    | some entry =>
      if isSame entry.2 serializable then (.ok (), st)
      else (.error .assignedTwice, st)
    | none =>
      if (alookup st.backend identifier).isSome then
        (.error .alreadyInBackend, st)
      else overwrite fuel st identifier serializable

/-- Embedding of `PulseStorage.overwrite` (lines 698-719): begin a transaction when
none is active, encode the entity's serialization record, accumulate the
(identifier, serialization) pair in the transaction, and — only when this
call began the transaction — flush every accumulated pair to the backend
with overwrite permission and merge them into the cache; the `finally`
clause resets the accumulator (on success and on error alike) exactly
when this call began the transaction. -/
def overwrite : Nat → StoreState → String → SVal → Except SErr Unit × StoreState
  | 0, st, _, _ => (.error .outOfFuel, st)
  | fuel + 1, st, identifier, serializable =>
    let isBegin := st.txn.isNone
    let st1 := if isBegin then {st with txn := some []} else st
    match encodeVal fuel st1 (serializationRecord serializable) with
    | (.error e, st2) =>
      (.error e, if isBegin then {st2 with txn := none} else st2)
    | (.ok serialized, st2) =>
      let st3 := {st2 with
        txn := some (ainsert (st2.txn.getD []) identifier
                      (serialized, serializable))}
      if isBegin then
        let m := st3.txn.getD []
        (.ok (), {st3 with
                    backend := flushAll st3.backend m,
                    temp := mergeTemp st3.temp m,
                    txn := none})
      else (.ok (), st3)

end

/-- Embedding of `PulseStorage.__delitem__` (lines 686-696): delete from the storage
backend (whose `KeyError` for an absent document propagates), then drop
the identifier from `_temporary_storage`, tolerating its absence there. -/
def storeDel (st : StoreState) (identifier : String) :
    Except SErr Unit × StoreState :=
  if (alookup st.backend identifier).isSome then
    (.ok (), {st with
                backend := aremove st.backend identifier,
                temp := aremove st.temp identifier})
  else (.error .keyNotFound, st)

/-- The decode side leaves the backend contents and the transaction
accumulator untouched (it only reads the backend and fills the cache). -/
def SameBT (st st' : StoreState) : Prop :=
  st'.backend = st.backend ∧ st'.txn = st.txn

/-- The encode side, run while a transaction is active, never touches the
backend (no flush happens) and never clears the transaction accumulator. -/
def EncBT (st st' : StoreState) : Prop :=
  st'.backend = st.backend ∧ st'.txn.isSome = true

/-! ## Association-list lemmas -/

@[simp] theorem alookup_nil (i : String) : alookup ([] : Assoc α) i = none := rfl

theorem alookup_ainsert_self (l : Assoc α) (k : String) (v : α) :
    alookup (ainsert l k v) k = some v := by
  induction l with
  | nil => simp [ainsert, alookup]
  | cons hd tl ih =>
    by_cases h : hd.1 = k
    · simp [ainsert, alookup, h]
    · simpa [ainsert, alookup, h] using ih

theorem alookup_ainsert_ne (l : Assoc α) {k k' : String} (v : α) (h : k' ≠ k) :
    alookup (ainsert l k v) k' = alookup l k' := by
  have hk : ¬k = k' := fun hk => h hk.symm
  induction l with
  | nil => simp [ainsert, alookup, hk]
  | cons hd tl ih =>
    by_cases hh : hd.1 = k
    · subst hh
      simp [ainsert, alookup, hk]
    · by_cases hk' : hd.1 = k'
      · obtain ⟨a, b⟩ := hd
        simp only at hh hk'
        subst hk'
        simp [ainsert, alookup, hk, hh]
      · simpa [ainsert, alookup, hh, hk'] using ih

theorem alookup_aremove_self (l : Assoc α) (k : String) :
    alookup (aremove l k) k = none := by
  induction l with
  | nil => simp [aremove]
  | cons hd tl ih =>
    obtain ⟨a, b⟩ := hd
    by_cases h : a = k
    · simpa [aremove, h] using ih
    · simpa [aremove, h, alookup] using ih

theorem alookup_aremove_ne (l : Assoc α) {k k' : String} (h : k' ≠ k) :
    alookup (aremove l k) k' = alookup l k' := by
  induction l with
  | nil => simp [aremove]
  | cons hd tl ih =>
    obtain ⟨a, b⟩ := hd
    have hkk : ¬k = k' := fun hx => h hx.symm
    by_cases hh : a = k
    · simpa [aremove, hh, alookup, hkk] using ih
    · by_cases hk' : a = k'
      · simp [aremove, hh, alookup, hk', h]
      · simpa [aremove, hh, alookup, hk'] using ih

theorem alookup_aremove_isNone (l : Assoc α) (k k' : String)
    (h : alookup l k = none) : alookup (aremove l k') k = none := by
  induction l with
  | nil => simp [aremove]
  | cons hd tl ih =>
    obtain ⟨a, b⟩ := hd
    by_cases hh : a = k
    · simp [alookup, hh] at h
    · simp [alookup, hh] at h
      by_cases hk' : a = k'
      · simp [aremove, hk']; exact ih h
      · simp [aremove, hk', alookup, hh]; exact ih h

theorem alookup_append (l₁ l₂ : Assoc α) (k : String) :
    alookup (l₁ ++ l₂) k =
      match alookup l₁ k with
      | some v => some v
      | none => alookup l₂ k := by
  induction l₁ with
  | nil => simp [alookup]
  | cons hd tl ih =>
    by_cases h : hd.1 = k
    · simp [alookup, h]
    · simpa [alookup, h] using ih

theorem alookup_filter_none (l : Assoc α) (p : String × α → Bool) (k : String)
    (h : alookup l k = none) : alookup (l.filter p) k = none := by
  induction l with
  | nil => simp
  | cons hd tl ih =>
    by_cases hh : hd.1 = k
    · simp [alookup, hh] at h
    · simp [alookup, hh] at h
      by_cases hp : p hd
      · simp [List.filter, hp, alookup, hh]; exact ih h
      · simp [List.filter, hp]; exact ih h

/-! ## Preservation invariants of the encoder/decoder -/

theorem SameBT.refl (st : StoreState) : SameBT st st := ⟨Eq.refl _, Eq.refl _⟩

theorem sameBT_chain {st st' st'' : StoreState}
    (h : SameBT st st') (h' : SameBT st' st'') : SameBT st st'' :=
  ⟨h'.1.trans h.1, h'.2.trans h.2⟩

theorem decodeSide_sameBT (fuel : Nat) :
    (∀ st i, SameBT st (storeGet fuel st i).2)
  ∧ (∀ st i, SameBT st (loadAndDeserialize fuel st i).2)
  ∧ (∀ st j, SameBT st (decodeVal fuel st j).2)
  ∧ (∀ st js, SameBT st (decodeArr fuel st js).2)
  ∧ (∀ st fs, SameBT st (decodeObj fuel st fs).2)
  ∧ (∀ st fs, SameBT st (filterSerializables fuel st fs).2) := by
  induction fuel with
  | zero =>
    exact ⟨fun _ _ => SameBT.refl _, fun _ _ => SameBT.refl _, fun _ _ => SameBT.refl _,
           fun _ _ => SameBT.refl _, fun _ _ => SameBT.refl _, fun _ _ => SameBT.refl _⟩
  | succ fuel ih =>
    obtain ⟨ihG, ihL, ihV, ihA, ihO, ihF⟩ := ih
    refine ⟨?_, ?_, ?_, ?_, ?_, ?_⟩
    · intro st i
      cases htemp : alookup st.temp i with
      | some entry => simp [storeGet, htemp, SameBT]
      | none =>
        have h := ihL st i
        rcases hld : loadAndDeserialize fuel st i with ⟨r, st'⟩
        rw [hld] at h
        cases r <;> simpa [storeGet, htemp, hld] using h
    · intro st i
      cases hb : alookup st.backend i with
      | none => simp [loadAndDeserialize, hb, SameBT]
      | some ser =>
        have h := ihV st ser
        rcases hdv : decodeVal fuel st ser with ⟨r, st'⟩
        rw [hdv] at h
        cases r <;> simpa [loadAndDeserialize, hb, hdv, SameBT] using h
    · intro st j
      cases j with
      | str s => simp [decodeVal, SameBT]
      | int n => simp [decodeVal, SameBT]
      | arr xs =>
        have h := ihA st xs
        rcases hda : decodeArr fuel st xs with ⟨r, st'⟩
        rw [hda] at h
        cases r <;> simpa [decodeVal, hda] using h
      | obj fs =>
        have h := ihO st fs
        rcases hdo : decodeObj fuel st fs with ⟨r, st'⟩
        rw [hdo] at h
        cases r with
        | error e => simpa [decodeVal, hdo] using h
        | ok dfs =>
          have h2 := ihF st' dfs
          simpa [decodeVal, hdo] using sameBT_chain h h2
    · intro st js
      cases js with
      | nil => simp [decodeArr, SameBT]
      | cons j rest =>
        have h := ihV st j
        rcases hdv : decodeVal fuel st j with ⟨r, st'⟩
        rw [hdv] at h
        cases r with
        | error e => simpa [decodeArr, hdv] using h
        | ok v =>
          have h2 := ihA st' rest
          rcases hda : decodeArr fuel st' rest with ⟨r2, st''⟩
          rw [hda] at h2
          cases r2 <;> simpa [decodeArr, hdv, hda] using sameBT_chain h h2
    · intro st fs
      cases fs with
      | nil => simp [decodeObj, SameBT]
      | cons kv rest =>
        obtain ⟨k, j⟩ := kv
        have h := ihV st j
        rcases hdv : decodeVal fuel st j with ⟨r, st'⟩
        rw [hdv] at h
        cases r with
        | error e => simpa [decodeObj, hdv] using h
        | ok v =>
          have h2 := ihO st' rest
          rcases hdo : decodeObj fuel st' rest with ⟨r2, st''⟩
          rw [hdo] at h2
          cases r2 <;> simpa [decodeObj, hdv, hdo] using sameBT_chain h h2
    · intro st fs
      cases htv : alookup fs "#type" with
      | none => simp [filterSerializables, htv, SameBT]
      | some tv =>
        cases tv with
        | str t =>
          by_cases hr : t = "reference"
          · subst hr
            cases hoid : alookup (aremove fs "#type") "#identifier" with
            | none => simp [filterSerializables, htv, hoid, SameBT]
            | some ov =>
              cases ov with
              | str i =>
                by_cases hi : i = ""
                · simp [filterSerializables, htv, hoid, hi, SameBT]
                · simpa [filterSerializables, htv, hoid, hi] using ihG st i
              | int n => simp [filterSerializables, htv, hoid, SameBT]
              | arr xs => simp [filterSerializables, htv, hoid, SameBT]
              | obj ofs => simp [filterSerializables, htv, hoid, SameBT]
              | ent u tg idn efs => simp [filterSerializables, htv, hoid, SameBT]
          · by_cases ht : t ∈ st.table
            · simp [filterSerializables, htv, hr, ht, SameBT]
            · simp [filterSerializables, htv, hr, ht, SameBT]
        | int n => simp [filterSerializables, htv, SameBT]
        | arr xs => simp [filterSerializables, htv, SameBT]
        | obj ofs => simp [filterSerializables, htv, SameBT]
        | ent u tg idn efs => simp [filterSerializables, htv, SameBT]

theorem encBT_chain {st st' st'' : StoreState}
    (h : EncBT st st') (h' : EncBT st' st'') : EncBT st st'' :=
  ⟨h'.1.trans h.1, h'.2⟩

theorem EncBT.of_sameBT {st st' : StoreState} (hs : st.txn.isSome = true)
    (h : SameBT st st') : EncBT st st' :=
  ⟨h.1, h.2 ▸ hs⟩

theorem encodeSide_encBT (fuel : Nat) :
    (∀ st v, st.txn.isSome = true → EncBT st (encodeVal fuel st v).2)
  ∧ (∀ st vs, st.txn.isSome = true → EncBT st (encodeArr fuel st vs).2)
  ∧ (∀ st fs, st.txn.isSome = true → EncBT st (encodeObj fuel st fs).2)
  ∧ (∀ st i e, st.txn.isSome = true → EncBT st (storeSet fuel st i e).2)
  ∧ (∀ st i e, st.txn.isSome = true → EncBT st (overwrite fuel st i e).2) := by
  induction fuel with
  | zero =>
    exact ⟨fun _ _ h => ⟨rfl, h⟩, fun _ _ h => ⟨rfl, h⟩, fun _ _ h => ⟨rfl, h⟩,
           fun _ _ _ h => ⟨rfl, h⟩, fun _ _ _ h => ⟨rfl, h⟩⟩
  | succ fuel ih =>
    obtain ⟨ihV, ihA, ihO, ihS, ihW⟩ := ih
    have ⟨dG, _, _, _, _, _⟩ := decodeSide_sameBT fuel
    refine ⟨?_, ?_, ?_, ?_, ?_⟩
    · intro st v hs
      cases v with
      | str s => exact ⟨rfl, hs⟩
      | int n => exact ⟨rfl, hs⟩
      | arr xs =>
        have h := ihA st xs hs
        rcases hea : encodeArr fuel st xs with ⟨r, st'⟩
        rw [hea] at h
        cases r <;> simpa [encodeVal, hea] using h
      | obj fs =>
        have h := ihO st fs hs
        rcases heo : encodeObj fuel st fs with ⟨r, st'⟩
        rw [heo] at h
        cases r <;> simpa [encodeVal, heo] using h
      | ent uid tag ident fields =>
        cases ident with
        | none => simpa [encodeVal] using ihV st (.obj (("#type", .str tag) :: fields)) hs
        | some i =>
          by_cases hi : i = ""
          · simpa [encodeVal, hi] using
              ihV st (.obj (("#type", .str tag) :: fields)) hs
          · by_cases hc : storeContains st i
            · have h := EncBT.of_sameBT hs (dG st i)
              rcases hg : storeGet fuel st i with ⟨r, st'⟩
              rw [hg] at h
              cases r with
              | error e => simpa [encodeVal, hi, hc, hg] using h
              | ok cur =>
                by_cases hsame : isSame cur (.ent uid tag (some i) fields)
                · simpa [encodeVal, hi, hc, hg, hsame] using h
                · simpa [encodeVal, hi, hc, hg, hsame] using h
            · have h := ihS st i (.ent uid tag (some i) fields) hs
              rcases hset : storeSet fuel st i (.ent uid tag (some i) fields)
                with ⟨r, st'⟩
              rw [hset] at h
              cases r <;> simpa [encodeVal, hi, hc, hset] using h
    · intro st vs hs
      cases vs with
      | nil => exact ⟨rfl, hs⟩
      | cons v rest =>
        have h := ihV st v hs
        rcases hev : encodeVal fuel st v with ⟨r, st'⟩
        rw [hev] at h
        cases r with
        | error e => simpa [encodeArr, hev] using h
        | ok j =>
          have h2 := ihA st' rest h.2
          rcases hea : encodeArr fuel st' rest with ⟨r2, st''⟩
          rw [hea] at h2
          cases r2 <;> simpa [encodeArr, hev, hea] using encBT_chain h h2
    · intro st fs hs
      cases fs with
      | nil => exact ⟨rfl, hs⟩
      | cons kv rest =>
        obtain ⟨k, v⟩ := kv
        have h := ihV st v hs
        rcases hev : encodeVal fuel st v with ⟨r, st'⟩
        rw [hev] at h
        cases r with
        | error e => simpa [encodeObj, hev] using h
        | ok j =>
          have h2 := ihO st' rest h.2
          rcases heo : encodeObj fuel st' rest with ⟨r2, st''⟩
          rw [heo] at h2
          cases r2 <;> simpa [encodeObj, hev, heo] using encBT_chain h h2
    · intro st i e hs
      cases htemp : alookup st.temp i with
      | some entry =>
        by_cases hsame : isSame entry.2 e
        · simp only [storeSet, htemp, hsame]
          exact ⟨rfl, hs⟩
        · simp only [storeSet, htemp, hsame]
          exact ⟨rfl, hs⟩
      | none =>
        cases hb : (alookup st.backend i).isSome with
        | true =>
          simp only [storeSet, htemp, hb]
          exact ⟨rfl, hs⟩
        | false =>
          have h := ihW st i e hs
          rcases hw : overwrite fuel st i e with ⟨r, st'⟩
          rw [hw] at h
          cases r <;> simpa [storeSet, htemp, hb, hw] using h
    · intro st i e hs
      cases htxn : st.txn with
      | none => rw [htxn] at hs; simp at hs
      | some m =>
        have hb : st.txn.isNone = false := by rw [htxn]; rfl
        have h := ihV st (serializationRecord e) hs
        rcases hev : encodeVal fuel st (serializationRecord e) with ⟨r, st2⟩
        rw [hev] at h
        cases r with
        | error e' =>
          simpa [overwrite, hb, hev] using h
        | ok jv =>
          refine ⟨?_, ?_⟩
          · simpa [overwrite, hb, hev] using h.1
          · simp [overwrite, hb, hev]

/-! ## Claim theorems -/

/-- C1: For every call to `PulseStorage.overwrite(id, entity)`: if no
transaction is active a new one begins and the call is the outermost one
(after it, the accumulator is reset); nested overwrite calls run while a
transaction is active join that same transaction (the accumulator stays
active, gains the call's own (identifier, serialization) pair, and
nothing is flushed to the backend by the nested call); all accumulated
pairs are flushed to the backend (`flushAll`, one
`put(..., overwrite=True)` per pair) and merged into the cache
(`mergeTemp`) only when the outermost call concludes; and if encoding
raises before the flush step, nothing at all is flushed to the backend
(the backend is unchanged). -/
theorem c1_overwrite_transaction (fuel : Nat) (st : StoreState) (i : String)
    (e : SVal) :
    (st.txn = none →
      ((overwrite fuel st i e).2.txn = none) ∧
      (∀ err, (overwrite fuel st i e).1 = .error err →
        (overwrite fuel st i e).2.backend = st.backend) ∧
      ((overwrite fuel st i e).1 = .ok () →
        ∃ m tmid jv, alookup m i = some (jv, e) ∧
          (overwrite fuel st i e).2.backend = flushAll st.backend m ∧
          (overwrite fuel st i e).2.temp = mergeTemp tmid m))
  ∧ (∀ m0, st.txn = some m0 →
      (overwrite fuel st i e).2.backend = st.backend ∧
      ((overwrite fuel st i e).1 = .ok () →
        ∃ m' jv, (overwrite fuel st i e).2.txn = some (ainsert m' i (jv, e)))) := by
  cases fuel with
  | zero =>
    refine ⟨fun h => ⟨h, fun _ _ => rfl, fun hok => ?_⟩,
            fun m0 h => ⟨rfl, fun hok => ?_⟩⟩ <;> exact absurd hok (by simp [overwrite])
  | succ fuel =>
    have ⟨encV, _, _, _, _⟩ := encodeSide_encBT fuel
    constructor
    · intro htxn
      have hsome : ({st with txn := some []} : StoreState).txn.isSome = true := rfl
      have h := encV {st with txn := some []} (serializationRecord e) hsome
      rcases hev : encodeVal fuel {st with txn := some []} (serializationRecord e)
        with ⟨r, st2⟩
      rw [hev] at h
      cases r with
      | error e' =>
        refine ⟨?_, ?_, ?_⟩
        · simp [overwrite, htxn, hev]
        · intro err _
          simpa [overwrite, htxn, hev] using h.1
        · intro hok
          exact absurd hok (by simp [overwrite, htxn, hev])
      | ok jv =>
        refine ⟨?_, ?_, ?_⟩
        · simp [overwrite, htxn, hev]
        · intro err herr
          exact absurd herr (by simp [overwrite, htxn, hev])
        · intro _
          refine ⟨ainsert (st2.txn.getD []) i (jv, e), st2.temp, jv,
            alookup_ainsert_self _ _ _, ?_, ?_⟩
          · have hb : st2.backend = st.backend := by simpa using h.1
            simp [overwrite, htxn, hev, hb]
          · simp [overwrite, htxn, hev]
    · intro m0 htxn
      have hsome : st.txn.isSome = true := by rw [htxn]; rfl
      have hnone : st.txn.isNone = false := by rw [htxn]; rfl
      have h := encV st (serializationRecord e) hsome
      rcases hev : encodeVal fuel st (serializationRecord e) with ⟨r, st2⟩
      rw [hev] at h
      cases r with
      | error e' =>
        refine ⟨?_, ?_⟩
        · simpa [overwrite, hnone, hev] using h.1
        · intro hok
          exact absurd hok (by simp [overwrite, hnone, hev])
      | ok jv =>
        refine ⟨?_, ?_⟩
        · simpa [overwrite, hnone, hev] using h.1
        · intro _
          exact ⟨st2.txn.getD [], jv, by simp [overwrite, hnone, hev]⟩

/-- C10: after every outermost `overwrite` call (one starting with no
active transaction) the accumulator is reset to the no-transaction state,
whether the call succeeds or raises; a nested call (one starting with an
active transaction) never clears the accumulator. -/
theorem c10_transaction_always_reset (fuel : Nat) (st : StoreState)
    (i : String) (e : SVal) :
    (st.txn = none → (overwrite fuel st i e).2.txn = none)
  ∧ (st.txn.isSome = true → (overwrite fuel st i e).2.txn.isSome = true) := by
  cases fuel with
  | zero => exact ⟨fun h => h, fun h => h⟩
  | succ fuel =>
    have ⟨_, _, _, _, encW⟩ := encodeSide_encBT (fuel + 1)
    constructor
    · intro htxn
      have hsome : ({st with txn := some []} : StoreState).txn.isSome = true := rfl
      have ⟨encV, _, _, _, _⟩ := encodeSide_encBT fuel
      rcases hev : encodeVal fuel {st with txn := some []} (serializationRecord e)
        with ⟨r, st2⟩
      cases r <;> simp [overwrite, htxn, hev]
    · intro hsome
      exact (encW st i e hsome).2

/-- Witness for C1: a concrete outermost overwrite (empty store) concludes
with the accumulator reset and the backend equal to the flushed
transaction, and a concrete nested overwrite leaves the backend untouched. -/
theorem c1_overwrite_transaction_witness :
    ((overwrite 20 ⟨[], none, [], 0, []⟩ "a" (.ent 5 "T" (some "a") [])).2.txn = none
  ∧ ∃ m tmid jv, alookup m "a" = some (jv, .ent 5 "T" (some "a") [])
      ∧ (overwrite 20 ⟨[], none, [], 0, []⟩ "a" (.ent 5 "T" (some "a") [])).2.backend =
          flushAll ([] : Assoc JVal) m
      ∧ (overwrite 20 ⟨[], none, [], 0, []⟩ "a" (.ent 5 "T" (some "a") [])).2.temp =
          mergeTemp tmid m)
  ∧ (overwrite 20 ⟨[], some [], [], 0, []⟩ "a" (.ent 5 "T" (some "a") [])).2.backend = [] :=
  ⟨⟨((c1_overwrite_transaction 20 ⟨[], none, [], 0, []⟩ "a" (.ent 5 "T" (some "a") [])).1 rfl).1,
    ((c1_overwrite_transaction 20 ⟨[], none, [], 0, []⟩ "a" (.ent 5 "T" (some "a") [])).1 rfl).2.2 rfl⟩,
   ((c1_overwrite_transaction 20 ⟨[], some [], [], 0, []⟩ "a" (.ent 5 "T" (some "a") [])).2 [] rfl).1⟩

/-- Witness for C10: concrete outermost call ends with no transaction;
concrete nested call keeps the transaction active. -/
theorem c10_transaction_always_reset_witness :
    (overwrite 20 ⟨[], none, [], 0, []⟩ "a" (.ent 5 "T" (some "a") [])).2.txn = none
  ∧ (overwrite 20 ⟨[], some [], [], 0, []⟩ "a" (.ent 5 "T" (some "a") [])).2.txn.isSome = true :=
  ⟨(c10_transaction_always_reset 20 ⟨[], none, [], 0, []⟩ "a" (.ent 5 "T" (some "a") [])).1 rfl,
   (c10_transaction_always_reset 20 ⟨[], some [], [], 0, []⟩ "a" (.ent 5 "T" (some "a") [])).2 rfl⟩

/-- Counterexample to C2: the conflict check of
`JSONSerializableEncoder.default` is `o.identifier not in self.storage`,
which consults the cache and the backend but NOT the current transaction.
Encoding entity instance 2 (identifier "b") while the current transaction
already holds a registration of "b" for the DIFFERENT instance 1 does not
fail with `IdentifierConflict`: it succeeds and silently replaces the
transaction entry (last one wins); a whole outermost overwrite of an
entity owning two different sub-instances that both claim the fresh
identifier "b" likewise succeeds, and the flushed document for "b" is the
second instance's. -/
theorem c2_identifier_conflict_counterexample :
    isSame (.ent 1 "TB" (some "b") [("v", .int 1)]) (.ent 2 "TB" (some "b") [("v", .int 2)]) = false
  ∧ encodeVal 10
      ⟨[], some [("b", (.obj [("#type", .str "TB"), ("#identifier", .str "b"), ("v", .int 1)],
                        .ent 1 "TB" (some "b") [("v", .int 1)]))], [], 10, []⟩
      (.ent 2 "TB" (some "b") [("v", .int 2)]) =
    (.ok (refToken "b"),
     ⟨[], some [("b", (.obj [("#type", .str "TB"), ("#identifier", .str "b"), ("v", .int 2)],
                       .ent 2 "TB" (some "b") [("v", .int 2)]))], [], 10, []⟩)
  ∧ (overwrite 40 ⟨[], none, [], 0, []⟩ "a"
      (.ent 0 "TA" (some "a")
        [("x", .ent 1 "TB" (some "b") [("v", .int 1)]),
         ("y", .ent 2 "TB" (some "b") [("v", .int 2)])])).1 = .ok ()
  ∧ alookup (overwrite 40 ⟨[], none, [], 0, []⟩ "a"
      (.ent 0 "TA" (some "a")
        [("x", .ent 1 "TB" (some "b") [("v", .int 1)]),
         ("y", .ent 2 "TB" (some "b") [("v", .int 2)])])).2.backend "b" =
    some (.obj [("#type", .str "TB"), ("#identifier", .str "b"), ("v", .int 2)]) :=
  ⟨rfl, rfl, rfl, rfl⟩

/-- C2 (amended): encoding an `Entity` that has an identifier always
yields the two-key Reference Token whenever it succeeds; the
registration/conflict check is made against the owning store (cache and
backend), not against the current transaction: (b) if the store's cache
already binds the identifier to a different instance, encoding fails with
`IdentifierConflict`; (c) if the store does not contain the identifier at
all, the entity is registered into the current transaction via a nested
overwrite (shown for a field-free entity) — an identifier already
registered only in the current transaction is not conflict-checked, the
new registration replacing the old one; and (d) encoding an entity that
owns two references to the same identified entity B produces exactly one
standalone document for B and two reference tokens. -/
theorem c2_reference_encoding :
    (∀ fuel (st : StoreState) uid tag i fields j st', i ≠ "" →
      encodeVal fuel st (.ent uid tag (some i) fields) = (.ok j, st') →
      j = refToken i)
  ∧ (∀ fuel (st : StoreState) uid tag i fields j0 e0, i ≠ "" →
      alookup st.temp i = some (j0, e0) →
      isSame e0 (.ent uid tag (some i) fields) = false →
      (encodeVal (fuel + 1 + 1) st (.ent uid tag (some i) fields)).1 =
        .error .identifierTaken)
  ∧ (∀ fuel (st : StoreState) uid tag i m, i ≠ "" →
      st.txn = some m →
      alookup st.temp i = none →
      alookup st.backend i = none →
      encodeVal (fuel + 1 + 1 + 1 + 1 + 1 + 1 + 1) st (.ent uid tag (some i) []) =
        (.ok (refToken i),
         {st with txn := some (ainsert m i
            (.obj [("#type", .str tag), ("#identifier", .str i)],
             .ent uid tag (some i) []))}))
  ∧ ((overwrite 40 ⟨[], none, [], 0, []⟩ "a"
        (.ent 0 "TA" (some "a")
          [("x", .ent 1 "TB" (some "b") []), ("y", .ent 1 "TB" (some "b") [])])).2.backend =
      [("b", .obj [("#type", .str "TB"), ("#identifier", .str "b")]),
       ("a", .obj [("#type", .str "TA"), ("#identifier", .str "a"),
                   ("x", refToken "b"), ("y", refToken "b")])]) := by
  refine ⟨?_, ?_, ?_, rfl⟩
  · intro fuel st uid tag i fields j st' hi henc
    cases fuel with
    | zero => exact absurd henc (by simp [encodeVal])
    | succ fuel =>
      by_cases hc : storeContains st i
      · rcases hg : storeGet fuel st i with ⟨r, stg⟩
        cases r with
        | error e' => simp [encodeVal, hi, hc, hg] at henc
        | ok cur =>
          by_cases hsame : isSame cur (.ent uid tag (some i) fields)
          · simp [encodeVal, hi, hc, hg, hsame] at henc
            exact henc.1.symm
          · simp [encodeVal, hi, hc, hg, hsame] at henc
      · rcases hset : storeSet fuel st i (.ent uid tag (some i) fields) with ⟨r, sts⟩
        cases r with
        | error e' => simp [encodeVal, hi, hc, hset] at henc
        | ok u =>
          simp [encodeVal, hi, hc, hset] at henc
          exact henc.1.symm
  · intro fuel st uid tag i fields j0 e0 hi htemp hsame
    have hc : storeContains st i = true := by simp [storeContains, htemp]
    have hg : storeGet (fuel + 1) st i = (.ok e0, st) := by
      simp [storeGet, htemp]
    simp [encodeVal, hi, hc, hg, hsame]
  · intro fuel st uid tag i m hi htxn htemp hback
    have hc : storeContains st i = false := by simp [storeContains, htemp, hback]
    have hnone : st.txn.isNone = false := by rw [htxn]; rfl
    simp [encodeVal, hi, hc, storeSet, htemp, hback, overwrite, hnone,
          serializationRecord, encodeObj, refToken, htxn]

/-! ## String and filter helper lemmas for the backend contracts -/

theorem string_append_right_cancel (a b c : String) (h : a ++ c = b ++ c) :
    a = b := by
  have hd : a.data ++ c.data = b.data ++ c.data := by
    have := congrArg String.data h
    simpa [String.data_append] using this
  have h2 := List.append_cancel_right hd
  cases a; cases b
  exact congrArg String.mk h2

theorem string_append_left_cancel (a b c : String) (h : c ++ a = c ++ b) :
    a = b := by
  have hd : c.data ++ a.data = c.data ++ b.data := by
    have := congrArg String.data h
    simpa [String.data_append] using this
  have h2 := List.append_cancel_left hd
  cases a; cases b
  exact congrArg String.mk h2

theorem filesystem_path_inj (root : String) {i j : String}
    (h : FilesystemBackend.path root i = FilesystemBackend.path root j) : i = j := by
  unfold FilesystemBackend.path at h
  exact string_append_left_cancel _ _ _ (string_append_right_cancel _ _ _ h)

theorem zip_path_inj {i j : String}
    (h : ZipFileBackend.path i = ZipFileBackend.path j) : i = j := by
  unfold ZipFileBackend.path at h
  exact string_append_right_cancel _ _ _ h

theorem alookup_filterout_self (l : Assoc α) (k : String) :
    alookup (l.filter fun it => it.1 ≠ k) k = none := by
  induction l with
  | nil => simp
  | cons hd tl ih =>
    obtain ⟨a, b⟩ := hd
    by_cases h : a = k
    · simpa [List.filter, h] using ih
    · simpa [List.filter, h, alookup] using ih

theorem alookup_filterout_ne (l : Assoc α) {k j : String} (h : j ≠ k) :
    alookup (l.filter fun it => it.1 ≠ k) j = alookup l j := by
  induction l with
  | nil => simp
  | cons hd tl ih =>
    obtain ⟨a, b⟩ := hd
    have hkj : ¬k = j := fun hx => h hx.symm
    by_cases hh : a = k
    · simpa [List.filter, hh, alookup, hkj] using ih
    · by_cases hj : a = j
      · simp [List.filter, hh, alookup, hj, h]
      · simpa [List.filter, hh, alookup, hj] using ih

theorem alookup_eq_none_of_not_mem_keys (l : Assoc α) (k : String)
    (h : k ∉ l.map Prod.fst) : alookup l k = none := by
  induction l with
  | nil => rfl
  | cons hd tl ih =>
    simp only [List.map_cons, List.mem_cons] at h
    push_neg at h
    have : ¬hd.1 = k := fun hx => h.1 hx.symm
    simpa [alookup, this] using ih h.2

theorem isSome_false_eq_none {o : Option α} (h : o.isSome = false) : o = none := by
  cases o with
  | none => rfl
  | some v => simp at h

theorem alookup_append_sing_self (l : Assoc α) (k : String) (v : α)
    (h : alookup l k = none) : alookup (l ++ [(k, v)]) k = some v := by
  rw [alookup_append, h]
  simp [alookup]

theorem alookup_append_sing_ne (l : Assoc α) {k q : String} (v : α)
    (h : k ≠ q) : alookup (l ++ [(q, v)]) k = alookup l k := by
  rw [alookup_append]
  have hqk : ¬q = k := fun hx => h hx.symm
  cases hx : alookup l k with
  | some w => rfl
  | none => simp [alookup, hqk]

/-- The net effect of a complete `ZipFileBackend._update` run. -/
theorem ZipFileBackend.update_eq (z : Assoc String) (f : String)
    (d : Option String) :
    ZipFileBackend.update z f d =
      z.filter (fun it => it.1 ≠ f) ++
        (match d with | some s => [(f, s)] | none => []) := rfl

theorem dict_put_ok {b : Assoc String} {i d : String} {ow : Bool}
    {b' : Assoc String} (h : DictBackend.put b i d ow = .ok b') :
    b' = ainsert b i d := by
  rw [DictBackend.put] at h
  split at h
  · simp at h
  · simpa using h.symm

theorem dict_delete_ok {b : Assoc String} {i : String} {b' : Assoc String}
    (h : DictBackend.delete b i = .ok b') : b' = aremove b i := by
  rw [DictBackend.delete] at h
  split at h
  · simpa using h.symm
  · simp at h

theorem caching_put_ok {s : CachingState} {i d : String} {ow : Bool}
    {s' : CachingState} (h : CachingBackend.put s i d ow = .ok s') :
    s' = ⟨ainsert s.cache i d, ainsert s.inner i d⟩ := by
  rw [CachingBackend.put] at h
  split at h
  · simp at h
  · split at h
    · simp at h
    · rename_i inner' heq
      have hi := dict_put_ok heq
      subst hi
      simpa using h.symm

theorem caching_delete_ok {s : CachingState} {i : String}
    {s' : CachingState} (h : CachingBackend.delete s i = .ok s') :
    s' = ⟨aremove s.cache i, aremove s.inner i⟩ := by
  rw [CachingBackend.delete] at h
  split at h
  · simp at h
  · rename_i inner' heq
    have hi := dict_delete_ok heq
    subst hi
    simpa using h.symm

theorem filesystem_put_ok {root : String} {fs : Assoc String}
    {i d : String} {ow : Bool} {fs' : Assoc String}
    (h : FilesystemBackend.put root fs i d ow = .ok fs') :
    fs' = ainsert fs (FilesystemBackend.path root i) d := by
  rw [FilesystemBackend.put] at h
  split at h
  · simp at h
  · simpa using h.symm

theorem filesystem_delete_ok {root : String} {fs : Assoc String}
    {i : String} {fs' : Assoc String}
    (h : FilesystemBackend.delete root fs i = .ok fs') :
    fs' = aremove fs (FilesystemBackend.path root i) := by
  rw [FilesystemBackend.delete] at h
  split at h
  · simpa using h.symm
  · simp at h

theorem zip_put_ok {z : Assoc String} {i d : String} {ow : Bool}
    {z' : Assoc String} (h : ZipFileBackend.put z i d ow = .ok z') :
    (ZipFileBackend.exists_ z i = false ∧ z' = z ++ [(ZipFileBackend.path i, d)])
  ∨ (ZipFileBackend.exists_ z i = true ∧ ow = true
      ∧ z' = ZipFileBackend.update z (ZipFileBackend.path i) (some d)) := by
  rw [ZipFileBackend.put] at h
  split at h
  · rename_i hex
    left
    simp only [Bool.not_eq_true'] at hex
    exact ⟨hex, by simpa using h.symm⟩
  · rename_i hex
    simp only [Bool.not_eq_true', Bool.not_eq_false] at hex
    split at h
    · rename_i how
      right
      exact ⟨hex, how, by simpa using h.symm⟩
    · simp at h

theorem zip_delete_ok {z : Assoc String} {i : String}
    {z' : Assoc String} (h : ZipFileBackend.delete z i = .ok z') :
    ZipFileBackend.exists_ z i = true
  ∧ z' = ZipFileBackend.update z (ZipFileBackend.path i) none := by
  rw [ZipFileBackend.delete] at h
  split at h
  · simp at h
  · rename_i hex
    simp only [Bool.not_eq_true', Bool.not_eq_false] at hex
    exact ⟨hex, by simpa using h.symm⟩

/-- C3: every storage-backend implementation — in-memory store
(`DictBackend`), caching decorator (`CachingBackend`), plain-file store
(`FilesystemBackend`), archive store (`ZipFileBackend`) — satisfies the
same contract: `put` without overwrite permission on an existing
identifier fails with `AlreadyExists` (the state is unchanged: the error
carries no new state); `put` with `overwrite=true` succeeds and a
subsequent `get` returns the new value; `get` and `delete` on an absent
identifier fail with `NotFound` (`KeyError`); and `exists` reflects the
`put`/`delete` history exactly: a successful `put`/`delete` of `i` makes
`exists i` true/false, and a successful `put`/`delete` of a different
identifier leaves `exists i` unchanged. For the caching decorator, the
absent-`get` conjunct assumes the decorator's invariant that its cache
keys are a subset of the wrapped backend's keys (every cache fill comes
from a successful backend operation). -/
theorem c3_backend_contract_parity :
    -- in-memory store
    ((∀ (b : Assoc String) i d, DictBackend.exists_ b i = true →
        DictBackend.put b i d false = .error .alreadyExists)
  ∧ (∀ (b : Assoc String) i d, DictBackend.put b i d true = .ok (ainsert b i d)
        ∧ DictBackend.get (ainsert b i d) i = .ok d)
  ∧ (∀ (b : Assoc String) i, DictBackend.exists_ b i = false →
        DictBackend.get b i = .error .keyNotFound)
  ∧ (∀ (b : Assoc String) i, DictBackend.exists_ b i = false →
        DictBackend.delete b i = .error .keyNotFound)
  ∧ (∀ (b : Assoc String) i d ow b', DictBackend.put b i d ow = .ok b' →
        DictBackend.exists_ b' i = true)
  ∧ (∀ (b : Assoc String) i b', DictBackend.delete b i = .ok b' →
        DictBackend.exists_ b' i = false)
  ∧ (∀ (b : Assoc String) i j d ow b', i ≠ j →
        DictBackend.put b j d ow = .ok b' →
        DictBackend.exists_ b' i = DictBackend.exists_ b i)
  ∧ (∀ (b : Assoc String) i j b', i ≠ j → DictBackend.delete b j = .ok b' →
        DictBackend.exists_ b' i = DictBackend.exists_ b i))
    -- caching decorator
  ∧ ((∀ (s : CachingState) i d, CachingBackend.exists_ s i = true →
        CachingBackend.put s i d false = .error .alreadyExists)
  ∧ (∀ (s : CachingState) i d,
        CachingBackend.put s i d true =
          .ok ⟨ainsert s.cache i d, ainsert s.inner i d⟩
        ∧ CachingBackend.get ⟨ainsert s.cache i d, ainsert s.inner i d⟩ i =
            .ok (d, ⟨ainsert s.cache i d, ainsert s.inner i d⟩))
  ∧ (∀ (s : CachingState) i,
        ((alookup s.cache i).isSome = true → (alookup s.inner i).isSome = true) →
        CachingBackend.exists_ s i = false →
        CachingBackend.get s i = .error .keyNotFound)
  ∧ (∀ (s : CachingState) i, CachingBackend.exists_ s i = false →
        CachingBackend.delete s i = .error .keyNotFound)
  ∧ (∀ (s : CachingState) i d ow s', CachingBackend.put s i d ow = .ok s' →
        CachingBackend.exists_ s' i = true)
  ∧ (∀ (s : CachingState) i s', CachingBackend.delete s i = .ok s' →
        CachingBackend.exists_ s' i = false)
  ∧ (∀ (s : CachingState) i j d ow s', i ≠ j →
        CachingBackend.put s j d ow = .ok s' →
        CachingBackend.exists_ s' i = CachingBackend.exists_ s i)
  ∧ (∀ (s : CachingState) i j s', i ≠ j → CachingBackend.delete s j = .ok s' →
        CachingBackend.exists_ s' i = CachingBackend.exists_ s i))
    -- plain-file store
  ∧ ((∀ root (fs : Assoc String) i d, FilesystemBackend.exists_ root fs i = true →
        FilesystemBackend.put root fs i d false = .error .alreadyExists)
  ∧ (∀ root (fs : Assoc String) i d,
        FilesystemBackend.put root fs i d true =
          .ok (ainsert fs (FilesystemBackend.path root i) d)
        ∧ FilesystemBackend.get root (ainsert fs (FilesystemBackend.path root i) d) i =
            .ok d)
  ∧ (∀ root (fs : Assoc String) i, FilesystemBackend.exists_ root fs i = false →
        FilesystemBackend.get root fs i = .error .keyNotFound)
  ∧ (∀ root (fs : Assoc String) i, FilesystemBackend.exists_ root fs i = false →
        FilesystemBackend.delete root fs i = .error .keyNotFound)
  ∧ (∀ root (fs : Assoc String) i d ow fs',
        FilesystemBackend.put root fs i d ow = .ok fs' →
        FilesystemBackend.exists_ root fs' i = true)
  ∧ (∀ root (fs : Assoc String) i fs',
        FilesystemBackend.delete root fs i = .ok fs' →
        FilesystemBackend.exists_ root fs' i = false)
  ∧ (∀ root (fs : Assoc String) i j d ow fs', i ≠ j →
        FilesystemBackend.put root fs j d ow = .ok fs' →
        FilesystemBackend.exists_ root fs' i = FilesystemBackend.exists_ root fs i)
  ∧ (∀ root (fs : Assoc String) i j fs', i ≠ j →
        FilesystemBackend.delete root fs j = .ok fs' →
        FilesystemBackend.exists_ root fs' i = FilesystemBackend.exists_ root fs i))
    -- archive store
  ∧ ((∀ (z : Assoc String) i d, ZipFileBackend.exists_ z i = true →
        ZipFileBackend.put z i d false = .error .alreadyExists)
  ∧ (∀ (z : Assoc String) i d, ZipFileBackend.exists_ z i = true →
        ZipFileBackend.put z i d true =
          .ok (ZipFileBackend.update z (ZipFileBackend.path i) (some d))
        ∧ ZipFileBackend.get
            (ZipFileBackend.update z (ZipFileBackend.path i) (some d)) i = .ok d)
  ∧ (∀ (z : Assoc String) i, ZipFileBackend.exists_ z i = false →
        ZipFileBackend.get z i = .error .keyNotFound)
  ∧ (∀ (z : Assoc String) i, ZipFileBackend.exists_ z i = false →
        ZipFileBackend.delete z i = .error .keyNotFound)
  ∧ (∀ (z : Assoc String) i d ow z', ZipFileBackend.put z i d ow = .ok z' →
        ZipFileBackend.exists_ z' i = true)
  ∧ (∀ (z : Assoc String) i z', ZipFileBackend.delete z i = .ok z' →
        ZipFileBackend.exists_ z' i = false)
  ∧ (∀ (z : Assoc String) i j d ow z', i ≠ j →
        ZipFileBackend.put z j d ow = .ok z' →
        ZipFileBackend.exists_ z' i = ZipFileBackend.exists_ z i)
  ∧ (∀ (z : Assoc String) i j z', i ≠ j → ZipFileBackend.delete z j = .ok z' →
        ZipFileBackend.exists_ z' i = ZipFileBackend.exists_ z i)) := by
  refine ⟨⟨?_, ?_, ?_, ?_, ?_, ?_, ?_, ?_⟩, ⟨?_, ?_, ?_, ?_, ?_, ?_, ?_, ?_⟩,
          ⟨?_, ?_, ?_, ?_, ?_, ?_, ?_, ?_⟩, ⟨?_, ?_, ?_, ?_, ?_, ?_, ?_, ?_⟩⟩
  -- in-memory store
  · intro b i d h
    simp only [DictBackend.exists_] at h
    simp [DictBackend.put, h]
  · intro b i d
    exact ⟨by simp [DictBackend.put], by simp [DictBackend.get, alookup_ainsert_self]⟩
  · intro b i h
    have hn : alookup b i = none := isSome_false_eq_none h
    simp [DictBackend.get, hn]
  · intro b i h
    have hn : alookup b i = none := isSome_false_eq_none h
    simp [DictBackend.delete, hn]
  · intro b i d ow b' h
    rw [dict_put_ok h]
    simp [DictBackend.exists_, alookup_ainsert_self]
  · intro b i b' h
    rw [dict_delete_ok h]
    simp [DictBackend.exists_, alookup_aremove_self]
  · intro b i j d ow b' hij h
    rw [dict_put_ok h]
    simp [DictBackend.exists_, alookup_ainsert_ne _ _ hij]
  · intro b i j b' hij h
    rw [dict_delete_ok h]
    simp [DictBackend.exists_, alookup_aremove_ne _ hij]
  -- caching decorator
  · intro s i d h
    simp only [CachingBackend.exists_, DictBackend.exists_] at h
    by_cases hc : (alookup s.cache i).isSome
    · simp [CachingBackend.put, hc]
    · simp [CachingBackend.put, hc, DictBackend.put, h]
  · intro s i d
    exact ⟨by simp [CachingBackend.put, DictBackend.put],
           by simp [CachingBackend.get, alookup_ainsert_self]⟩
  · intro s i hsub h
    simp only [CachingBackend.exists_, DictBackend.exists_] at h
    have hin : alookup s.inner i = none := isSome_false_eq_none h
    have hcache : alookup s.cache i = none := by
      cases hx : alookup s.cache i with
      | none => rfl
      | some v =>
        have := hsub (by simp [hx])
        rw [hin] at this
        simp at this
    simp [CachingBackend.get, hcache, DictBackend.get, hin]
  · intro s i h
    simp only [CachingBackend.exists_, DictBackend.exists_] at h
    have hin : alookup s.inner i = none := isSome_false_eq_none h
    simp [CachingBackend.delete, DictBackend.delete, hin]
  · intro s i d ow s' h
    rw [caching_put_ok h]
    simp [CachingBackend.exists_, DictBackend.exists_, alookup_ainsert_self]
  · intro s i s' h
    rw [caching_delete_ok h]
    simp [CachingBackend.exists_, DictBackend.exists_, alookup_aremove_self]
  · intro s i j d ow s' hij h
    rw [caching_put_ok h]
    simp [CachingBackend.exists_, DictBackend.exists_, alookup_ainsert_ne _ _ hij]
  · intro s i j s' hij h
    rw [caching_delete_ok h]
    simp [CachingBackend.exists_, DictBackend.exists_, alookup_aremove_ne _ hij]
  -- plain-file store
  · intro root fs i d h
    simp [FilesystemBackend.put, h]
  · intro root fs i d
    exact ⟨by simp [FilesystemBackend.put, FilesystemBackend.exists_],
           by simp [FilesystemBackend.get, alookup_ainsert_self]⟩
  · intro root fs i h
    have hn : alookup fs (FilesystemBackend.path root i) = none :=
      isSome_false_eq_none (by simpa [FilesystemBackend.exists_] using h)
    simp [FilesystemBackend.get, hn]
  · intro root fs i h
    have hn : alookup fs (FilesystemBackend.path root i) = none :=
      isSome_false_eq_none (by simpa [FilesystemBackend.exists_] using h)
    simp [FilesystemBackend.delete, hn]
  · intro root fs i d ow fs' h
    rw [filesystem_put_ok h]
    simp [FilesystemBackend.exists_, alookup_ainsert_self]
  · intro root fs i fs' h
    rw [filesystem_delete_ok h]
    simp [FilesystemBackend.exists_, alookup_aremove_self]
  · intro root fs i j d ow fs' hij h
    have hpij : FilesystemBackend.path root i ≠ FilesystemBackend.path root j :=
      fun hx => hij (filesystem_path_inj root hx)
    rw [filesystem_put_ok h]
    simp [FilesystemBackend.exists_, alookup_ainsert_ne _ _ hpij]
  · intro root fs i j fs' hij h
    have hpij : FilesystemBackend.path root i ≠ FilesystemBackend.path root j :=
      fun hx => hij (filesystem_path_inj root hx)
    rw [filesystem_delete_ok h]
    simp [FilesystemBackend.exists_, alookup_aremove_ne _ hpij]
  -- archive store
  · intro z i d h
    simp [ZipFileBackend.put, h]
  · intro z i d h
    refine ⟨by simp [ZipFileBackend.put, h], ?_⟩
    rw [ZipFileBackend.update_eq]
    simp only [ZipFileBackend.get]
    rw [alookup_append_sing_self _ _ _ (alookup_filterout_self _ _)]
  · intro z i h
    have hn : alookup z (ZipFileBackend.path i) = none :=
      isSome_false_eq_none (by simpa [ZipFileBackend.exists_] using h)
    simp [ZipFileBackend.get, hn]
  · intro z i h
    simp [ZipFileBackend.delete, h]
  · intro z i d ow z' h
    rcases zip_put_ok h with ⟨hex, rfl⟩ | ⟨hex, how, rfl⟩
    · have hn : alookup z (ZipFileBackend.path i) = none :=
        isSome_false_eq_none (by simpa [ZipFileBackend.exists_] using hex)
      unfold ZipFileBackend.exists_
      rw [alookup_append_sing_self _ _ _ hn]
      rfl
    · rw [ZipFileBackend.update_eq]
      unfold ZipFileBackend.exists_
      rw [alookup_append_sing_self _ _ _ (alookup_filterout_self _ _)]
      rfl
  · intro z i z' h
    rcases zip_delete_ok h with ⟨hex, rfl⟩
    rw [ZipFileBackend.update_eq]
    unfold ZipFileBackend.exists_
    show (alookup (z.filter (fun it => it.1 ≠ ZipFileBackend.path i) ++ [])
      (ZipFileBackend.path i)).isSome = false
    rw [List.append_nil, alookup_filterout_self]
    rfl
  · intro z i j d ow z' hij h
    have hpij : ZipFileBackend.path i ≠ ZipFileBackend.path j :=
      fun hx => hij (zip_path_inj hx)
    rcases zip_put_ok h with ⟨hex, rfl⟩ | ⟨hex, how, rfl⟩
    · unfold ZipFileBackend.exists_
      rw [alookup_append_sing_ne _ _ hpij]
    · rw [ZipFileBackend.update_eq]
      unfold ZipFileBackend.exists_
      rw [alookup_append_sing_ne _ _ hpij, alookup_filterout_ne _ hpij]
  · intro z i j z' hij h
    have hpij : ZipFileBackend.path i ≠ ZipFileBackend.path j :=
      fun hx => hij (zip_path_inj hx)
    rcases zip_delete_ok h with ⟨hex, rfl⟩
    rw [ZipFileBackend.update_eq]
    unfold ZipFileBackend.exists_
    show (alookup (z.filter (fun it => it.1 ≠ ZipFileBackend.path j) ++ [])
      (ZipFileBackend.path i)).isSome = (alookup z (ZipFileBackend.path i)).isSome
    rw [List.append_nil, alookup_filterout_ne _ hpij]

/-- Witness for C2 (amended) at concrete inputs: a successful encode of an
identified entity (part a, instantiated with its computed result), a
cache conflict with a different instance (part b), and a fresh-identifier
registration into an active transaction (part c). -/
theorem c2_reference_encoding_witness :
    refToken "a" = refToken "a"
  ∧ (encodeVal (7 + 1 + 1)
      ⟨[("b", (.obj [], .ent 7 "TB" (some "b") []))], none, [], 0, []⟩
      (.ent 2 "TB" (some "b") [])).1 = .error .identifierTaken
  ∧ encodeVal (0 + 1 + 1 + 1 + 1 + 1 + 1 + 1) ⟨[], some [], [], 0, []⟩
      (.ent 5 "T" (some "a") []) =
      (.ok (refToken "a"),
       ⟨[], some (ainsert [] "a"
          (.obj [("#type", .str "T"), ("#identifier", .str "a")],
           .ent 5 "T" (some "a") [])), [], 0, []⟩) :=
  ⟨c2_reference_encoding.1 10 ⟨[], none, [], 0, []⟩ 5 "T" "a" [] (refToken "a") _
     (by decide) rfl,
   c2_reference_encoding.2.1 7 ⟨[("b", (.obj [], .ent 7 "TB" (some "b") []))], none, [], 0, []⟩
     2 "TB" "b" [] (.obj []) (.ent 7 "TB" (some "b") []) (by decide) rfl rfl,
   c2_reference_encoding.2.2.1 0 ⟨[], some [], [], 0, []⟩ 5 "T" "a" []
     (by decide) rfl rfl rfl⟩

/-- Witness for C3 at concrete inputs, one hypothesis-bearing conjunct per
backend implementation. -/
theorem c3_backend_contract_parity_witness :
    DictBackend.put [("a", "x")] "a" "y" false = .error .alreadyExists
  ∧ CachingBackend.get ⟨[], []⟩ "a" = .error .keyNotFound
  ∧ FilesystemBackend.delete "r" [] "a" = .error .keyNotFound
  ∧ ZipFileBackend.get
      (ZipFileBackend.update [("a.json", "OLD")] (ZipFileBackend.path "a")
        (some "NEW")) "a" = .ok "NEW" :=
  ⟨c3_backend_contract_parity.1.1 [("a", "x")] "a" "y" rfl,
   c3_backend_contract_parity.2.1.2.2.1 ⟨[], []⟩ "a" (fun h => h) rfl,
   c3_backend_contract_parity.2.2.1.2.2.2.1 "r" [] "a" rfl,
   (c3_backend_contract_parity.2.2.2.2.1 [("a.json", "OLD")] "a" "NEW" rfl).2⟩

theorem alookup_sweep_none (reg : Assoc Nat) (live : Nat → Bool) (i : String)
    (u0 : Nat) (hnd : (reg.map Prod.fst).Nodup) (h : alookup reg i = some u0)
    (hl : live u0 = false) : alookup (sweep reg live) i = none := by
  induction reg with
  | nil => simp [alookup] at h
  | cons hd tl ih =>
    obtain ⟨a, b⟩ := hd
    simp only [List.map_cons, List.nodup_cons] at hnd
    by_cases ha : a = i
    · subst ha
      have hb : b = u0 := by simpa [alookup] using h
      subst hb
      have htl : alookup tl a = none :=
        alookup_eq_none_of_not_mem_keys tl a hnd.1
      simp only [sweep, List.filter, hl]
      exact alookup_filter_none tl _ a htl
    · simp only [alookup, ha, if_false] at h
      have := ih hnd.2 h
      by_cases hb : live b
      · simpa [sweep, List.filter, hb, alookup, ha] using this
      · simpa [sweep, List.filter, hb] using this

/-- Counterexample to C4: `Serializable._register` raises even when the
identifier maps to the very same (still reachable) entity — the code
checks only `self.identifier in registry`, never whether the registered
entity is a different one. Here instance 0, already registered under
"a" and still reachable, re-registers under its own identifier and the
call fails. -/
theorem c4_register_counterexample :
    register [("a", 0)] (fun _ => true) 0 (some "a") =
      .error .duplicateIdentifier := rfl

/-- C4 (amended): `register(id, entity)` fails with `DuplicateIdentifier`
exactly when, after the forced reachability sweep, `id` still maps to a
still-reachable entity — whether that entity is the registering one or a
different one; a stale entry for an already-unreachable entity is not
reported as a duplicate (the sweep removes it and registration succeeds);
and `register` on an entity with no identifier is a no-op. -/
theorem c4_register_duplicate :
    (∀ (reg : Assoc Nat) (live : Nat → Bool) u i, i ≠ "" →
      (register reg live u (some i) = .error .duplicateIdentifier ↔
        (alookup (sweep reg live) i).isSome = true))
  ∧ (∀ (reg : Assoc Nat) (live : Nat → Bool) u i u0, i ≠ "" →
      (reg.map Prod.fst).Nodup → alookup reg i = some u0 → live u0 = false →
      register reg live u (some i) = .ok (ainsert (sweep reg live) i u))
  ∧ (∀ (reg : Assoc Nat) (live : Nat → Bool) u,
      register reg live u none = .ok reg) := by
  refine ⟨?_, ?_, fun _ _ _ => rfl⟩
  · intro reg live u i hi
    by_cases h1 : (alookup reg i).isSome
    · by_cases h2 : (alookup (sweep reg live) i).isSome
      · simp [register, hi, h1, h2]
      · simp [register, hi, h1, h2]
    · have hn : alookup reg i = none :=
        isSome_false_eq_none (by simpa using h1)
      have hsw : alookup (sweep reg live) i = none :=
        alookup_filter_none reg _ i hn
      simp [register, hi, h1, hsw]
  · intro reg live u i u0 hi hnd h hl
    have h1 : (alookup reg i).isSome = true := by simp [h]
    have hsw : alookup (sweep reg live) i = none :=
      alookup_sweep_none reg live i u0 hnd h hl
    simp [register, hi, h1, hsw]

/-- Witness for C4 (amended): a live same-instance re-registration fails
(via the iff), a dead entry is swept and registration succeeds, and a
`None` identifier is a no-op. -/
theorem c4_register_duplicate_witness :
    register [("a", 0)] (fun _ => true) 1 (some "a") = .error .duplicateIdentifier
  ∧ register [("a", 0)] (fun _ => false) 1 (some "a") =
      .ok (ainsert (sweep [("a", 0)] (fun _ => false)) "a" 1)
  ∧ register [("a", 0)] (fun _ => true) 1 none = .ok [("a", 0)] :=
  ⟨(c4_register_duplicate.1 [("a", 0)] (fun _ => true) 1 "a" (by decide)).mpr rfl,
   c4_register_duplicate.2.1 [("a", 0)] (fun _ => false) 1 "a" 0 (by decide)
     (by simp) rfl rfl,
   c4_register_duplicate.2.2 [("a", 0)] (fun _ => true) 1⟩

/-- Counterexample to C5: with identifier "a" cached for the very same
entity AND present in the backend, `PulseStorage.__setitem__` neither
fails with `AlreadyBound` (though "a" is "already present in the backend")
nor delegates to `overwrite`: it returns leaving the state untouched,
while `overwrite` on the same input would re-encode and re-put (storing
the record `obj [#type T, #identifier a]` over the old document
`obj []`). -/
theorem c5_setitem_counterexample :
    (alookup (⟨[("a", (.obj [], .ent 0 "T" (some "a") []))], none,
       [("a", .obj [])], 0, []⟩ : StoreState).backend "a").isSome = true
  ∧ storeSet 5 ⟨[("a", (.obj [], .ent 0 "T" (some "a") []))], none,
       [("a", .obj [])], 0, []⟩ "a" (.ent 0 "T" (some "a") []) =
      (.ok (), ⟨[("a", (.obj [], .ent 0 "T" (some "a") []))], none,
       [("a", .obj [])], 0, []⟩)
  ∧ alookup (overwrite 5 ⟨[("a", (.obj [], .ent 0 "T" (some "a") []))], none,
       [("a", .obj [])], 0, []⟩ "a" (.ent 0 "T" (some "a") [])).2.backend "a" =
      some (.obj [("#type", .str "T"), ("#identifier", .str "a")]) :=
  ⟨rfl, rfl, rfl⟩

/-- C5 (amended): `PulseStorage.__setitem__` fails with `AlreadyBound`
(`RuntimeError`) if the identifier is cached pointing at a different
entity, or if it is not cached and is present in the backend; if it is
cached pointing at the very same entity the call is a no-op (it does not
consult the backend and does not delegate); in every remaining case it
delegates to `overwrite`. -/
theorem c5_setitem_first_assignment :
    (∀ fuel (st : StoreState) i e entry, alookup st.temp i = some entry →
       isSame entry.2 e = false →
       storeSet (fuel + 1) st i e = (.error .assignedTwice, st))
  ∧ (∀ fuel (st : StoreState) i e entry, alookup st.temp i = some entry →
       isSame entry.2 e = true →
       storeSet (fuel + 1) st i e = (.ok (), st))
  ∧ (∀ fuel (st : StoreState) i e, alookup st.temp i = none →
       (alookup st.backend i).isSome = true →
       storeSet (fuel + 1) st i e = (.error .alreadyInBackend, st))
  ∧ (∀ fuel (st : StoreState) i e, alookup st.temp i = none →
       (alookup st.backend i).isSome = false →
       storeSet (fuel + 1) st i e = overwrite fuel st i e) := by
  refine ⟨?_, ?_, ?_, ?_⟩
  · intro fuel st i e entry htemp hsame
    simp [storeSet, htemp, hsame]
  · intro fuel st i e entry htemp hsame
    simp [storeSet, htemp, hsame]
  · intro fuel st i e htemp hback
    simp [storeSet, htemp, hback]
  · intro fuel st i e htemp hback
    simp [storeSet, htemp, hback]

/-- Witness for C5 (amended) at concrete inputs: all four cases. -/
theorem c5_setitem_first_assignment_witness :
    storeSet 3 ⟨[("a", (.obj [], .ent 0 "T" (some "a") []))], none, [], 0, []⟩
      "a" (.ent 1 "T" (some "a") []) =
      (.error .assignedTwice,
       ⟨[("a", (.obj [], .ent 0 "T" (some "a") []))], none, [], 0, []⟩)
  ∧ storeSet 3 ⟨[("a", (.obj [], .ent 0 "T" (some "a") []))], none, [], 0, []⟩
      "a" (.ent 0 "T" (some "a") []) =
      (.ok (), ⟨[("a", (.obj [], .ent 0 "T" (some "a") []))], none, [], 0, []⟩)
  ∧ storeSet 3 ⟨[], none, [("a", .obj [])], 0, []⟩ "a" (.ent 0 "T" (some "a") []) =
      (.error .alreadyInBackend, ⟨[], none, [("a", .obj [])], 0, []⟩)
  ∧ storeSet 3 ⟨[], none, [], 0, []⟩ "a" (.ent 0 "T" (some "a") []) =
      overwrite 2 ⟨[], none, [], 0, []⟩ "a" (.ent 0 "T" (some "a") []) :=
  ⟨c5_setitem_first_assignment.1 2 _ "a" _ _ rfl rfl,
   c5_setitem_first_assignment.2.1 2 _ "a" _ _ rfl rfl,
   c5_setitem_first_assignment.2.2.1 2 _ "a" _ rfl rfl,
   c5_setitem_first_assignment.2.2.2 2 _ "a" _ rfl rfl⟩

/-- Counterexample to C6: `PulseStorage.__delitem__` does NOT tolerate a
`NotFound` from the backend — the `try/except KeyError` in the source
wraps only the `_temporary_storage` deletion. With "a" present only in
the cache and absent from the backend, `remove("a")` raises `KeyError`
(and the cache entry is not dropped either). -/
theorem c6_remove_counterexample :
    storeDel ⟨[("a", (.obj [], .ent 0 "T" (some "a") []))], none, [], 0, []⟩ "a" =
      (.error .keyNotFound,
       ⟨[("a", (.obj [], .ent 0 "T" (some "a") []))], none, [], 0, []⟩) := rfl

/-- C6 (amended): `PulseStorage.__delitem__` deletes the document from the
backend and also drops the identifier's entry from the
materialized-entity cache when one is present (tolerating its absence
from the cache); a `NotFound` (`KeyError`) from the backend propagates —
removing an identifier absent from the backend raises. -/
theorem c6_remove_deletes_backend_and_cache :
    (∀ (st : StoreState) i d, alookup st.backend i = some d →
      storeDel st i =
        (.ok (), {st with
                    backend := aremove st.backend i,
                    temp := aremove st.temp i}))
  ∧ (∀ (st : StoreState) i, alookup st.backend i = none →
      storeDel st i = (.error .keyNotFound, st)) := by
  refine ⟨?_, ?_⟩
  · intro st i d h
    simp [storeDel, h]
  · intro st i h
    simp [storeDel, h]

/-- Witness for C6 (amended): deleting a present identifier removes it
from backend and cache; deleting an absent identifier raises. -/
theorem c6_remove_deletes_backend_and_cache_witness :
    storeDel ⟨[("a", (.obj [], .ent 0 "T" (some "a") []))], none,
      [("a", .obj [])], 0, []⟩ "a" =
      (.ok (), ⟨aremove [("a", (.obj [], .ent 0 "T" (some "a") []))] "a", none,
        aremove [("a", .obj [])] "a", 0, []⟩)
  ∧ storeDel ⟨[], none, [], 0, []⟩ "a" = (.error .keyNotFound, ⟨[], none, [], 0, []⟩) :=
  ⟨c6_remove_deletes_backend_and_cache.1 _ "a" (.obj []) rfl,
   c6_remove_deletes_backend_and_cache.2 _ "a" rfl⟩

/-- Counterexample to C7: the new entry is NOT written into the temporary
archive before the replace step. After step 2 (the temporary archive
fully written) the temp contains only the other entries, without the new
data; and after step 4 (the replace completed) the archive still lacks
the new data — it is appended only afterwards, directly to the replaced
archive. -/
theorem c7_update_order_counterexample :
    (ZipFileBackend.updateAfter [("a.json", "OLD"), ("b.json", "B")] "a.json"
      (some "NEW") 2).temp = some [("b.json", "B")]
  ∧ (ZipFileBackend.updateAfter [("a.json", "OLD"), ("b.json", "B")] "a.json"
      (some "NEW") 4).archive = some [("b.json", "B")] :=
  ⟨rfl, rfl⟩

/-- C7 (amended): `ZipFileBackend._update` on an existing entry copies
every other entry into a fresh temporary archive, replaces the original
archive with the temporary one via remove-then-rename, and only then
appends the new entry (when putting) directly to the replaced archive;
an update interrupted before the remove step (steps 0-2) leaves the
original archive fully intact with the old content and none of the new
content; the complete run yields the other entries plus (for a put) the
new entry; and `put` of an absent entry appends directly to the archive
without any temporary-file rewrite. -/
theorem c7_archive_update_atomicity :
    (∀ (z : Assoc String) f d n, n ≤ 2 →
      (ZipFileBackend.updateAfter z f d n).archive = some z)
  ∧ (∀ (z : Assoc String) f d,
      (ZipFileBackend.updateAfter z f d 4).archive =
        some (z.filter (fun it => it.1 ≠ f))
      ∧ (ZipFileBackend.updateAfter z f d 5).archive =
          some (z.filter (fun it => it.1 ≠ f) ++
            (match d with | some s => [(f, s)] | none => [])))
  ∧ (∀ (z : Assoc String) i d, ZipFileBackend.exists_ z i = false →
      ZipFileBackend.put z i d false = .ok (z ++ [(ZipFileBackend.path i, d)]))
  ∧ (∀ (z : Assoc String) i d, ZipFileBackend.exists_ z i = true →
      ZipFileBackend.put z i d true =
        .ok (ZipFileBackend.update z (ZipFileBackend.path i) (some d)))
  ∧ (∀ (z : Assoc String) i, ZipFileBackend.exists_ z i = true →
      ZipFileBackend.delete z i =
        .ok (ZipFileBackend.update z (ZipFileBackend.path i) none)) := by
  refine ⟨?_, ?_, ?_, ?_, ?_⟩
  · intro z f d n hn
    interval_cases n <;> rfl
  · intro z f d
    exact ⟨rfl, rfl⟩
  · intro z i d h
    simp [ZipFileBackend.put, h]
  · intro z i d h
    simp [ZipFileBackend.put, h]
  · intro z i h
    simp [ZipFileBackend.delete, h]

/-- Witness for C7 (amended) at concrete inputs: an interruption at step 1
leaves the archive intact, a put of an absent entry appends directly, and
a put of an existing entry runs the full update. -/
theorem c7_archive_update_atomicity_witness :
    (ZipFileBackend.updateAfter [("a.json", "OLD")] "a.json" (some "NEW") 1).archive =
      some [("a.json", "OLD")]
  ∧ ZipFileBackend.put [("a.json", "OLD")] "b" "NEW" false =
      .ok [("a.json", "OLD"), ("b.json", "NEW")]
  ∧ ZipFileBackend.put [("a.json", "OLD")] "a" "NEW" true =
      .ok (ZipFileBackend.update [("a.json", "OLD")] (ZipFileBackend.path "a")
        (some "NEW")) :=
  ⟨c7_archive_update_atomicity.1 [("a.json", "OLD")] "a.json" (some "NEW") 1
     (by decide),
   c7_archive_update_atomicity.2.2.1 [("a.json", "OLD")] "b" "NEW" rfl,
   c7_archive_update_atomicity.2.2.2.1 [("a.json", "OLD")] "a" "NEW" rfl⟩

/-- Decoding a reference token reduces to `PulseStorage.__getitem__` on
the referenced identifier (the two string tags are decoded structurally,
then `filter_serializables` pops them and resolves through the store). -/
theorem decodeVal_refToken (g : Nat) (st : StoreState) (i : String)
    (hi : ¬i = "") :
    decodeVal (g + 1 + 1 + 1 + 1) st (refToken i) = storeGet (g + 1 + 1) st i := by
  simp [decodeVal, decodeObj, refToken, filterSerializables, aremove, alookup, hi]

/-- C8: a mapping bearing the reference type tag resolves to the live
entity obtained by identifier lookup against the owning store: if the
identifier is already materialized in the store's cache the cached entity
is returned with no further effect; if not, the identifier's document is
loaded from the backend, recursively decoded, and cached; and a reference
whose target identifier has no stored document fails the decode with
`DanglingReference` (`KeyError`). -/
theorem c8_reference_resolution :
    (∀ g (st : StoreState) i j e0, i ≠ "" → alookup st.temp i = some (j, e0) →
      decodeVal (g + 1 + 1 + 1 + 1) st (refToken i) = (.ok e0, st))
  ∧ (∀ g (st : StoreState) i, i ≠ "" → alookup st.temp i = none →
      alookup st.backend i = none →
      decodeVal (g + 1 + 1 + 1 + 1) st (refToken i) = (.error .keyNotFound, st))
  ∧ (∀ g (st : StoreState) i doc, i ≠ "" → alookup st.temp i = none →
      alookup st.backend i = some doc →
      decodeVal (g + 1 + 1 + 1 + 1) st (refToken i) =
        (match decodeVal g st doc with
         | (.ok sv, st') =>
             (.ok sv, {st' with temp := ainsert st'.temp i (doc, sv)})
         | (.error e, st') => (.error e, st'))) := by
  refine ⟨?_, ?_, ?_⟩
  · intro g st i j e0 hi htemp
    rw [decodeVal_refToken g st i hi]
    simp [storeGet, htemp]
  · intro g st i hi htemp hback
    rw [decodeVal_refToken g st i hi]
    simp [storeGet, htemp, loadAndDeserialize, hback]
  · intro g st i doc hi htemp hback
    rw [decodeVal_refToken g st i hi]
    rcases hdv : decodeVal g st doc with ⟨r, st'⟩
    cases r <;> simp [storeGet, htemp, loadAndDeserialize, hback, hdv]

/-- Witness for C8 at concrete inputs: cache hit, dangling reference, and
recursive load from the backend. -/
theorem c8_reference_resolution_witness :
    decodeVal (0 + 1 + 1 + 1 + 1)
      ⟨[("p", (.obj [], .ent 3 "T" (some "p") []))], none, [], 9, []⟩
      (refToken "p") =
      (.ok (.ent 3 "T" (some "p") []),
       ⟨[("p", (.obj [], .ent 3 "T" (some "p") []))], none, [], 9, []⟩)
  ∧ decodeVal (0 + 1 + 1 + 1 + 1) ⟨[], none, [], 0, []⟩ (refToken "p") =
      (.error .keyNotFound, ⟨[], none, [], 0, []⟩)
  ∧ decodeVal (4 + 1 + 1 + 1 + 1)
      ⟨[], none, [("p", .obj [("#type", .str "T"), ("#identifier", .str "p")])],
       0, ["T"]⟩ (refToken "p") =
      (match decodeVal 4
        ⟨[], none, [("p", .obj [("#type", .str "T"), ("#identifier", .str "p")])],
         0, ["T"]⟩ (.obj [("#type", .str "T"), ("#identifier", .str "p")]) with
       | (.ok sv, st') =>
           (.ok sv,
            {st' with
               temp := ainsert st'.temp "p" (.obj [("#type", .str "T"), ("#identifier", .str "p")], sv)})
       | (.error e, st') => (.error e, st')) :=
  ⟨c8_reference_resolution.1 0 _ "p" (.obj []) (.ent 3 "T" (some "p") [])
     (by decide) rfl,
   c8_reference_resolution.2.1 0 _ "p" (by decide) rfl rfl,
   c8_reference_resolution.2.2 4 _ "p"
     (.obj [("#type", .str "T"), ("#identifier", .str "p")]) (by decide) rfl rfl⟩

/-- C9: during decoding, a mapping bearing a type tag other than the
reference tag is reconstructed by the callback registered for that tag in
the process-wide dispatch table, receiving the remaining fields with both
reserved tags stripped plus the identifier when present (the constructed
entity carries exactly those); it fails with `UnknownType` (`KeyError`)
when no callback is registered for the tag; and a mapping bearing no type
tag at all is returned unchanged. -/
theorem c9_type_tag_dispatch :
    (∀ fuel (st : StoreState) fs, alookup fs "#type" = none →
      filterSerializables (fuel + 1) st fs = (.ok (.obj fs), st))
  ∧ (∀ fuel (st : StoreState) fs t, alookup fs "#type" = some (.str t) →
      t ≠ "reference" → t ∈ st.table →
      filterSerializables (fuel + 1) st fs =
        (.ok (.ent st.nextUid t
           (match alookup (aremove fs "#type") "#identifier" with
            | some (.str s) => some s
            | _ => none)
           (aremove (aremove fs "#type") "#identifier")),
         {st with nextUid := st.nextUid + 1}))
  ∧ (∀ fuel (st : StoreState) fs t, alookup fs "#type" = some (.str t) →
      t ≠ "reference" → t ∉ st.table →
      filterSerializables (fuel + 1) st fs = (.error .unknownType, st)) := by
  refine ⟨?_, ?_, ?_⟩
  · intro fuel st fs h
    simp [filterSerializables, h]
  · intro fuel st fs t h hr ht
    simp [filterSerializables, h, hr, ht]
  · intro fuel st fs t h hr ht
    simp [filterSerializables, h, hr, ht]

/-- Witness for C9 at concrete inputs: a registered tag constructs the
entity from the stripped fields plus the identifier, an unregistered tag
fails, and an untagged mapping passes through unchanged. -/
theorem c9_type_tag_dispatch_witness :
    filterSerializables 1 ⟨[], none, [], 0, []⟩ [("x", .int 3)] =
      (.ok (.obj [("x", .int 3)]), ⟨[], none, [], 0, []⟩)
  ∧ filterSerializables 1 ⟨[], none, [], 7, ["T"]⟩
      [("#type", .str "T"), ("#identifier", .str "p"), ("x", .int 3)] =
      (.ok (.ent 7 "T"
         (match alookup (aremove ([("#type", SVal.str "T"), ("#identifier", SVal.str "p"), ("x", SVal.int 3)] : Assoc SVal) "#type") "#identifier" with
          | some (.str s) => some s
          | _ => none)
         (aremove (aremove ([("#type", SVal.str "T"), ("#identifier", SVal.str "p"), ("x", SVal.int 3)] : Assoc SVal) "#type") "#identifier")),
       ⟨[], none, [], 8, ["T"]⟩)
  ∧ filterSerializables 1 ⟨[], none, [], 0, []⟩ [("#type", .str "U")] =
      (.error .unknownType, ⟨[], none, [], 0, []⟩) :=
  ⟨c9_type_tag_dispatch.1 0 _ [("x", .int 3)] rfl,
   c9_type_tag_dispatch.2.1 0 ⟨[], none, [], 7, ["T"]⟩
     [("#type", .str "T"), ("#identifier", .str "p"), ("x", .int 3)] "T" rfl
     (by decide) (by simp),
   c9_type_tag_dispatch.2.2 0 ⟨[], none, [], 0, []⟩ [("#type", .str "U")] "U" rfl
     (by decide) (by simp)⟩
